import Mathlib

/-!
Shallow embedding of `src/cleaning/data_cleaning.py`: a single-pass pandas
cleaning pipeline (drop fully-null rows, drop sparse columns, drop the
`authzn_id` column, coerce date columns, impute `pd_dt` / `clm_adjud_ts` /
`procsr_apprv_pay_by_nm`, IQR outlier filter on `totl_billd_amt`, drop
duplicate rows), together with the Databricks connection check in
`get_spark` and the sequencing of `main`.

Rational arithmetic inside executable definitions is written with `mkRat`
(`ratAdd`, `ratSub`, `ratMul` below) rather than `+`/`-`/`*` on `ℚ`, because
the latter are `@[irreducible]` and do not evaluate inside `decide`; the
lemmas `ratAdd_eq`, `ratSub_eq`, `ratMul_eq` prove these are exactly the
field operations of `ℚ`, and the claim statements themselves use the
ordinary operations.
-/

namespace DataCleaning

/-- Addition on `ℚ`, kernel-reducible form (see `ratAdd_eq`). -/
def ratAdd (a b : ℚ) : ℚ := mkRat (a.num * b.den + b.num * a.den) (a.den * b.den)

/-- Subtraction on `ℚ`, kernel-reducible form (see `ratSub_eq`). -/
def ratSub (a b : ℚ) : ℚ := ratAdd a (-b)

/-- Multiplication on `ℚ`, kernel-reducible form (see `ratMul_eq`). -/
def ratMul (a b : ℚ) : ℚ := mkRat (a.num * b.num) (a.den * b.den)

/-- A cell value of the in-memory frame: numeric, string, or timestamp
(timestamps abstracted to an integer number of days, which is the granularity
the pipeline's `pd.Timedelta(days=2)` arithmetic uses). -/
inductive Val where
  | num : ℚ → Val
  | str : String → Val
  | date : ℤ → Val
deriving DecidableEq, Repr

/-- A row, as the association of each column name with a possibly-missing
cell (`none` models pandas NaN/NaT). -/
abbrev Row : Type := List (String × Option Val)

/-- An in-memory frame: the column header plus the rows, each row keyed by
column name in header order. -/
structure Frame where
  cols : List String
  rows : List Row
deriving DecidableEq, Repr

/-- `rowGet c r` is the cell of row `r` at column `c` (the first entry with
that key): `none` when the column is absent, `some cell` otherwise. -/
def rowGet (c : String) : Row → Option (Option Val)
  | [] => none
  | (k, v) :: r => if k = c then some v else rowGet c r

/-- Replace the cell at column `c` by `g` applied to it, keeping all other
entries; models an assignment `df[c] = f(df[c])` at one row. -/
def rowMap (c : String) (g : Option Val → Option Val) : Row → Row
  | [] => []
  | (k, v) :: r => (if k = c then (k, g v) else (k, v)) :: rowMap c g r

/-- `df.dropna(how="all")`: keep exactly the rows having at least one
non-missing cell. -/
def dropAllNullRows (f : Frame) : Frame :=
  { f with rows := f.rows.filter (fun r => r.any (fun p => p.2.isSome)) }

/-- Number of rows whose cell at column `c` is missing — the numerator of
`df.isnull().mean()` for that column. -/
def missingCount (f : Frame) (c : String) : Nat :=
  f.rows.countP (fun r => decide (rowGet c r = some none))

/-- The columns `missing_pct[missing_pct > 40].index`: missing fraction
strictly above 40% of the row count (stated over naturals:
`100 * missing > 40 * nrows`). On an empty frame the mean is NaN in pandas
and `NaN > 40` is false; here the count is `0` and `0 > 0` is false. -/
def colsToDrop (f : Frame) : List String :=
  f.cols.filter (fun c => decide (100 * missingCount f c > 40 * f.rows.length))

/-- `df.drop(columns=bad, errors="ignore")`: remove the named columns from
the header and from every row. -/
def dropColumns (bad : List String) (f : Frame) : Frame :=
  { cols := f.cols.filter (fun c => !bad.contains c)
    rows := f.rows.map (fun r => r.filter (fun p => !bad.contains p.1)) }

/-- Drop the sparse columns, with the missing fractions measured on the
frame as it stands when the rule runs. -/
def dropSparseColumns (f : Frame) : Frame :=
  dropColumns (colsToDrop f) f

/-- `df.drop(columns=["authzn_id"], errors="ignore")`. -/
def dropAuthznId (f : Frame) : Frame :=
  dropColumns ["authzn_id"] f

/-- Parse of a `"YYYY-MM-DD"` component triple into a day count (standard
civil-calendar day numbering, days since 1970-01-01). -/
def daysFromCivil (y m d : ℤ) : ℤ :=
  let y' := if m ≤ 2 then y - 1 else y
  let era := (if 0 ≤ y' then y' else y' - 399) / 400
  let yoe := y' - era * 400
  let mp := (m + 9) % 12
  let doy := (153 * mp + 2) / 5 + d - 1
  let doe := yoe * 365 + yoe / 4 - yoe / 100 + doy
  era * 146097 + doe - 719468

/-- The numeric value of a decimal digit character. -/
def digitVal (c : Char) : Option Nat :=
  if '0' ≤ c ∧ c ≤ '9' then some (c.toNat - '0'.toNat) else none

/-- Accumulating decimal parse of a digit string. -/
def digitsToNatAux (acc : Nat) : List Char → Option Nat
  | [] => some acc
  | c :: cs =>
    match digitVal c with
    | some d => digitsToNatAux (acc * 10 + d) cs
    | none => none

/-- Decimal parse of a non-empty digit string. -/
def digitsToNat : List Char → Option Nat
  | [] => none
  | cs => digitsToNatAux 0 cs

/-- Split a character list on a separator character (semantics of
`String.splitOn` for a one-character separator). -/
def splitOnChar (sep : Char) : List Char → List (List Char)
  | [] => [[]]
  | c :: cs =>
    let rest := splitOnChar sep cs
    if c = sep then [] :: rest
    else
      match rest with
      | [] => [[c]]
      | g :: gs => (c :: g) :: gs

/-- Modelled from the spec: the date-string grammar accepted by the external
`pd.to_datetime` call is library code, not part of this repository; per the
spec, "values that fail to parse become missing". The model accepts ISO
`YYYY-MM-DD` strings with a valid month and day and rejects everything else
(so e.g. `"not-a-date"` fails to parse). -/
def parseDateStr (s : String) : Option ℤ :=
  match (splitOnChar '-' s.toList).map digitsToNat with
  | [some y, some m, some d] =>
      if 1 ≤ m ∧ m ≤ 12 ∧ 1 ≤ d ∧ d ≤ 31 then
        some (daysFromCivil (Int.ofNat y) (Int.ofNat m) (Int.ofNat d))
      else none
  | _ => none

/-- Coercion of one non-missing value by `pd.to_datetime(..., errors="coerce")`:
already-typed timestamps pass through, strings go through the date grammar,
anything else fails to parse; a failure yields `none` (missing), never an
error. -/
def parseVal : Val → Option Val
  | .date d => some (.date d)
  | .str s => (parseDateStr s).map .date
  | .num _ => none

/-- One iteration of the source's date loop:
`if col in df.columns: df[col] = pd.to_datetime(df[col], errors="coerce")`. -/
def parseDateCol (c : String) (f : Frame) : Frame :=
  if c ∈ f.cols then
    { f with rows := f.rows.map (rowMap c (fun cell => cell.bind parseVal)) }
  else f

/-- The date columns of the source's loop, in loop order. -/
def dateColNames : List String := ["pd_dt", "clm_adjud_ts", "clm_sys_cret_dt"]

/-- The date-parsing loop, unrolled in the source's order. -/
def parseDates (f : Frame) : Frame :=
  parseDateCol "clm_sys_cret_dt" (parseDateCol "clm_adjud_ts" (parseDateCol "pd_dt" f))

/-- `series.fillna(fallback)` at one cell. -/
def fillCell (v fallback : Option Val) : Option Val :=
  match v with
  | some w => some w
  | none => fallback

/-- `Timestamp + Timedelta(days=k)`; non-timestamp values are unchanged
(they cannot occur in a parsed date column). -/
def addDays (k : ℤ) : Val → Val
  | .date d => .date (d + k)
  | v => v

/-- Row effect of
`df["pd_dt"] = df["pd_dt"].fillna(df["clm_sys_cret_dt"] + Timedelta(days=2))`. -/
def fillPdRow (r : Row) : Row :=
  rowMap "pd_dt"
    (fun v => fillCell v (((rowGet "clm_sys_cret_dt" r).getD none).map (addDays 2))) r

/-- Impute `pd_dt`, guarded exactly as the source:
`if "clm_sys_cret_dt" in df.columns and "pd_dt" in df.columns`. -/
def imputePdDt (f : Frame) : Frame :=
  if "clm_sys_cret_dt" ∈ f.cols ∧ "pd_dt" ∈ f.cols then
    { f with rows := f.rows.map fillPdRow }
  else f

/-- Row effect of
`df["clm_adjud_ts"] = df["clm_adjud_ts"].fillna(df["pd_dt"] - Timedelta(days=2))`. -/
def fillAdjudRow (r : Row) : Row :=
  rowMap "clm_adjud_ts"
    (fun v => fillCell v (((rowGet "pd_dt" r).getD none).map (addDays (-2)))) r

/-- Impute `clm_adjud_ts`, guarded exactly as the source:
`if "pd_dt" in df.columns and "clm_adjud_ts" in df.columns`. -/
def imputeClmAdjudTs (f : Frame) : Frame :=
  if "pd_dt" ∈ f.cols ∧ "clm_adjud_ts" ∈ f.cols then
    { f with rows := f.rows.map fillAdjudRow }
  else f

/-- `df["procsr_apprv_pay_by_nm"].fillna("unknown")`, guarded on column
presence. -/
def imputeCategorical (f : Frame) : Frame :=
  if "procsr_apprv_pay_by_nm" ∈ f.cols then
    { f with rows := f.rows.map (rowMap "procsr_apprv_pay_by_nm"
        (fun v => fillCell v (some (.str "unknown")))) }
  else f

/-- Insertion of one element into a sorted list (ascending). -/
def insertSorted (x : ℚ) : List ℚ → List ℚ
  | [] => [x]
  | y :: ys => if x ≤ y then x :: y :: ys else y :: insertSorted x ys

/-- Ascending insertion sort, the order in which numpy's quantile indexes
the non-missing values. -/
def sortRat (l : List ℚ) : List ℚ :=
  l.foldr insertSorted []

/-- Floor of a rational as an integer. -/
def ratFloor (q : ℚ) : ℤ :=
  q.num.fdiv q.den

/-- Ceiling of a rational as an integer. -/
def ratCeil (q : ℚ) : ℤ :=
  -ratFloor (-q)

/-- `series.quantile(p)` with the default linear interpolation over the
non-missing values `xs`: with the values sorted ascending and
`h = p * (n - 1)`, the result is `s[⌊h⌋] + (h - ⌊h⌋) * (s[⌈h⌉] - s[⌊h⌋])`;
on an empty series pandas yields NaN, modelled as `none`.
(`quantileSpec_eq` restates this with the ordinary `ℚ` operations.) -/
def quantile (p : ℚ) (xs : List ℚ) : Option ℚ :=
  match sortRat xs with
  | [] => none
  | s =>
    let n := s.length
    let h := ratMul p (ratSub (n : ℚ) 1)
    let lo := (ratFloor h).toNat
    let hi := (ratCeil h).toNat
    let vlo := s.getD lo 0
    let vhi := s.getD hi 0
    some (ratAdd vlo (ratMul (ratSub h (lo : ℚ)) (ratSub vhi vlo)))

/-- The linear-interpolation quantile written with the ordinary field
operations of `ℚ`. -/
def quantileSpec (p : ℚ) (xs : List ℚ) : Option ℚ :=
  match sortRat xs with
  | [] => none
  | s =>
    let n := s.length
    let h := p * ((n : ℚ) - 1)
    let lo := (ratFloor h).toNat
    let hi := (ratCeil h).toNat
    let vlo := s.getD lo 0
    let vhi := s.getD hi 0
    some (vlo + (h - (lo : ℚ)) * (vhi - vlo))

/-- The non-missing numeric values of column `totl_billd_amt`, the series
over which the source computes `Q1` and `Q3` (pandas `quantile` skips NaN). -/
def amtValues (f : Frame) : List ℚ :=
  f.rows.filterMap (fun r =>
    match rowGet "totl_billd_amt" r with
    | some (some (.num q)) => some q
    | _ => none)

/-- Outlier removal on `totl_billd_amt`:
`df[(df[c] >= Q1 - 1.5*IQR) & (df[c] <= Q3 + 1.5*IQR)]` with
`IQR = Q3 - Q1`. A missing (or non-numeric) cell satisfies neither
comparison, so the row is dropped; when the column has no numeric values at
all, both quantiles are NaN and the comparisons reject every row. -/
def removeOutliers (f : Frame) : Frame :=
  if "totl_billd_amt" ∈ f.cols then
    match quantile (mkRat 1 4) (amtValues f), quantile (mkRat 3 4) (amtValues f) with
    | some q1, some q3 =>
      { f with rows := f.rows.filter (fun r =>
          match rowGet "totl_billd_amt" r with
          | some (some (.num q)) =>
              decide (ratSub q1 (ratMul (mkRat 3 2) (ratSub q3 q1)) ≤ q ∧
                q ≤ ratAdd q3 (ratMul (mkRat 3 2) (ratSub q3 q1)))
          | _ => false) }
    | _, _ => { f with rows := [] }
  else f

/-- `df.drop_duplicates()` keeping first occurrences: `seen` accumulates the
row values already emitted. -/
def dedupFirstAux (seen : List Row) : List Row → List Row
  | [] => []
  | r :: rs =>
    if r ∈ seen then dedupFirstAux seen rs
    else r :: dedupFirstAux (r :: seen) rs

/-- `df.drop_duplicates()` (default `keep="first"`): pandas compares all
columns and treats missing as equal to missing. -/
def dedupFirst (l : List Row) : List Row :=
  dedupFirstAux [] l

/-- The duplicate-drop stage of the pipeline. -/
def dropDuplicateRows (f : Frame) : Frame :=
  { f with rows := dedupFirst f.rows }

/-- Pipeline prefix: frame after the fully-null row drop (source line 61). -/
def cleaned1 (f : Frame) : Frame := dropAllNullRows f

/-- Frame after the sparse-column drop (lines 64-68). -/
def cleaned2 (f : Frame) : Frame := dropSparseColumns (cleaned1 f)

/-- Frame after the `authzn_id` drop (line 71). -/
def cleaned3 (f : Frame) : Frame := dropAuthznId (cleaned2 f)

/-- Frame after date parsing (lines 74-76). -/
def cleaned4 (f : Frame) : Frame := parseDates (cleaned3 f)

/-- Frame after `pd_dt` imputation (lines 78-79). -/
def cleaned5 (f : Frame) : Frame := imputePdDt (cleaned4 f)

/-- Frame after `clm_adjud_ts` imputation (lines 81-82). -/
def cleaned6 (f : Frame) : Frame := imputeClmAdjudTs (cleaned5 f)

/-- Frame after the categorical fill (lines 85-86). -/
def cleaned7 (f : Frame) : Frame := imputeCategorical (cleaned6 f)

/-- Frame after outlier removal (lines 89-97). -/
def cleaned8 (f : Frame) : Frame := removeOutliers (cleaned7 f)

/-- The full cleaning pipeline of `main` (lines 61-102 of the source). -/
def clean (f : Frame) : Frame := dropDuplicateRows (cleaned8 f)

/-- The four required connection environment variables, as `os.getenv`
returns them: `none` when the variable is unset, `some s` when set to `s`
(possibly the empty string). -/
structure Env where
  host : Option String
  token : Option String
  clusterId : Option String
  httpPath : Option String
deriving DecidableEq, Repr

/-- Python truthiness of an `os.getenv` result, as tested by
`all([host, token, cluster_id, http_path])`: `None` and the empty string
are falsy, any other string is truthy. -/
def pyTruthy : Option String → Bool
  | none => false
  | some s => !s.isEmpty

/-- The generic (not per-field) message of the `RuntimeError` raised by
`get_spark` (source line 23). -/
def missingEnvMsg : String :=
  "Missing one of DATABRICKS_HOST/DATABRICKS_TOKEN/DATABRICKS_CLUSTER_ID/DATABRICKS_HTTP_PATH"

/-- `get_spark` (source lines 8-32): read the four variables, raise the
configuration error unless all four are truthy, otherwise return a session
handle (abstracted to `Unit`). -/
def getSpark (e : Env) : Except String Unit :=
  if pyTruthy e.host && pyTruthy e.token && pyTruthy e.clusterId && pyTruthy e.httpPath then
    .ok ()
  else
    .error missingEnvMsg

/-- The externally visible I/O steps of `main`, in program order. -/
inductive Action where
  | connect
  | readTable
  | writeCleanTable
  | writeFeatureTable
deriving DecidableEq, Repr

/-- `main` (source lines 34-123), with the remote engine abstracted: the
source table's contents are the parameter `src`; the result is the ordered
list of I/O actions performed and the cleaned frame written to both
destination tables, or the raised error. The `get_spark` call precedes
every read and write, so on a configuration error no action at all is
performed. -/
def mainRun (e : Env) (src : Frame) : Except String (List Action × Frame) :=
  match getSpark e with
  | .error msg => .error msg
  | .ok _ =>
      .ok ([.connect, .readTable, .writeCleanTable, .writeFeatureTable], clean src)

/-- The duplicate-drop rule as the spec words it: "keep the first occurrence
of each distinct row, drop the rest" — keep the head, delete every later
copy of it, recurse. -/
def keepFirstSpec : List Row → List Row
  | [] => []
  | r :: rs => r :: keepFirstSpec (rs.filter (fun x => decide (x ≠ r)))
termination_by l => l.length
decreasing_by
  simp only [List.length_cons]
  exact Nat.lt_succ_of_le (List.length_filter_le _ _)

/-! ### Concrete frames and environments used by witnesses and counterexamples -/

/-- Counterexample frame for C2: one column, one fully-missing row. -/
def frameC2 : Frame :=
  { cols := ["A"]
    rows := [[("A", none)], [("A", some (.num 1))]] }

/-- Witness frame for the amended C2: column `A` is two-thirds missing. -/
def frameC2w : Frame :=
  { cols := ["A", "B"]
    rows := [[("A", some (.str "x")), ("B", none)],
             [("A", none), ("B", some (.str "y"))],
             [("A", none), ("B", some (.str "z"))]] }

/-- Counterexample frame for C5: dropping sparse column `A` leaves the first
row fully missing in the output. -/
def frameC5 : Frame :=
  { cols := ["A", "B"]
    rows := [[("A", some (.str "u")), ("B", none)],
             [("A", none), ("B", some (.str "v"))],
             [("A", none), ("B", some (.str "w"))]] }

/-- Witness frame for C4: the first row has `pd_dt` missing and
`clm_sys_cret_dt` present. -/
def frameC4 : Frame :=
  { cols := ["pd_dt", "clm_sys_cret_dt"]
    rows := [[("pd_dt", none), ("clm_sys_cret_dt", some (.date 100))],
             [("pd_dt", some (.date 5)), ("clm_sys_cret_dt", some (.date 3))],
             [("pd_dt", some (.date 6)), ("clm_sys_cret_dt", some (.date 4))]] }

/-- The first row of `frameC4` as it reaches the `pd_dt` imputation rule. -/
def rowC4 : Row := [("pd_dt", none), ("clm_sys_cret_dt", some (.date 100))]

/-- Witness frame for C3: in the first row both `pd_dt` and `clm_adjud_ts`
are missing, so the imputed `clm_adjud_ts` derives from the just-imputed
`pd_dt`. -/
def frameC3 : Frame :=
  { cols := ["pd_dt", "clm_sys_cret_dt", "clm_adjud_ts"]
    rows :=
      [[("pd_dt", none), ("clm_sys_cret_dt", some (.date 100)), ("clm_adjud_ts", none)],
       [("pd_dt", some (.date 5)), ("clm_sys_cret_dt", some (.date 3)),
        ("clm_adjud_ts", some (.date 4))],
       [("pd_dt", some (.date 6)), ("clm_sys_cret_dt", some (.date 4)),
        ("clm_adjud_ts", some (.date 5))]] }

/-- The first row of `frameC3` as it reaches the `clm_adjud_ts` imputation
rule: `pd_dt` has already been imputed to `100 + 2`. -/
def rowC3 : Row :=
  [("pd_dt", some (.date 102)), ("clm_sys_cret_dt", some (.date 100)), ("clm_adjud_ts", none)]

/-- Witness frame for C8: an unparseable date string in `clm_sys_cret_dt`. -/
def frameC8 : Frame :=
  { cols := ["clm_sys_cret_dt"]
    rows := [[("clm_sys_cret_dt", some (.str "not-a-date"))],
             [("clm_sys_cret_dt", some (.date 7))]] }

/-- The first row of `frameC8` as it reaches the date-parsing step. -/
def rowC8 : Row := [("clm_sys_cret_dt", some (.str "not-a-date"))]

/-- Witness frame for C1: `totl_billd_amt` values 1, 2, 3, 4 and the outlier
1000 (quartiles 2 and 4, acceptance band [-1, 7]). -/
def frameC1 : Frame :=
  { cols := ["totl_billd_amt"]
    rows := [[("totl_billd_amt", some (.num 1))],
             [("totl_billd_amt", some (.num 2))],
             [("totl_billd_amt", some (.num 3))],
             [("totl_billd_amt", some (.num 4))],
             [("totl_billd_amt", some (.num 1000))]] }

/-- A surviving row of `frameC1`. -/
def rowC1 : Row := [("totl_billd_amt", some (.num 2))]

/-- Counterexample environment for C7: all four variables are set, but the
token is the empty string. -/
def envC7 : Env := ⟨some "h", some "", some "c", some "p"⟩

/-- Witness environment (configuration error branch): the token is unset. -/
def envC7bad : Env := ⟨some "h", none, some "c", some "p"⟩

/-- Witness environment (success branch): all four set and non-empty. -/
def envC7ok : Env := ⟨some "h", some "t", some "c", some "p"⟩

/-- A small source frame for exercising `mainRun`. -/
def frameC7w : Frame := { cols := ["A"], rows := [[("A", some (.num 1))]] }

/-! ### Helper lemmas -/

theorem ratAdd_eq (a b : ℚ) : ratAdd a b = a + b := by
  have ha : ((a.den : ℚ)) ≠ 0 := by
    exact_mod_cast a.den_nz
  have hb : ((b.den : ℚ)) ≠ 0 := by
    exact_mod_cast b.den_nz
  rw [ratAdd, Rat.mkRat_eq_div]
  push_cast
  conv_rhs => rw [← Rat.num_div_den a, ← Rat.num_div_den b]
  field_simp

theorem ratSub_eq (a b : ℚ) : ratSub a b = a - b := by
  rw [ratSub, ratAdd_eq]
  ring

theorem ratMul_eq (a b : ℚ) : ratMul a b = a * b := by
  have ha : ((a.den : ℚ)) ≠ 0 := by
    exact_mod_cast a.den_nz
  have hb : ((b.den : ℚ)) ≠ 0 := by
    exact_mod_cast b.den_nz
  rw [ratMul, Rat.mkRat_eq_div]
  push_cast
  conv_rhs => rw [← Rat.num_div_den a, ← Rat.num_div_den b]
  field_simp

/-- `quantile` restated with the ordinary field operations of `ℚ`. -/
theorem quantileSpec_eq (p : ℚ) (xs : List ℚ) : quantile p xs = quantileSpec p xs := by
  unfold quantile quantileSpec
  cases sortRat xs with
  | nil => rfl
  | cons a s => simp [ratAdd_eq, ratSub_eq, ratMul_eq]

theorem rowGet_rowMap_self (c : String) (g : Option Val → Option Val) (r : Row) :
    rowGet c (rowMap c g r) = (rowGet c r).map g := by
  induction r with
  | nil => rfl
  | cons p r ih =>
    obtain ⟨k, v⟩ := p
    by_cases hk : k = c
    · rw [rowMap, if_pos hk, rowGet, if_pos hk, rowGet, if_pos hk]
      rfl
    · rw [rowMap, if_neg hk, rowGet, if_neg hk, ih, rowGet, if_neg hk]

theorem rowGet_rowMap_ne (c c' : String) (hne : c ≠ c')
    (g : Option Val → Option Val) (r : Row) :
    rowGet c (rowMap c' g r) = rowGet c r := by
  induction r with
  | nil => rfl
  | cons p r ih =>
    obtain ⟨k, v⟩ := p
    by_cases hk : k = c'
    · have hkc : ¬ k = c := fun h => hne (h.symm.trans hk)
      rw [rowMap, if_pos hk, rowGet, if_neg hkc, ih, rowGet, if_neg hkc]
    · rw [rowMap, if_neg hk, rowGet, rowGet]
      by_cases hkc : k = c
      · rw [if_pos hkc, if_pos hkc]
      · rw [if_neg hkc, if_neg hkc, ih]

theorem mem_of_mem_dedupFirstAux {x : Row} {seen l : List Row}
    (h : x ∈ dedupFirstAux seen l) : x ∈ l := by
  induction l generalizing seen with
  | nil => simp [dedupFirstAux] at h
  | cons r rs ih =>
    by_cases hr : r ∈ seen
    · simp only [dedupFirstAux, if_pos hr] at h
      exact List.mem_cons_of_mem _ (ih h)
    · simp only [dedupFirstAux, if_neg hr, List.mem_cons] at h
      rcases h with h | h
      · exact h ▸ List.mem_cons_self _ _
      · exact List.mem_cons_of_mem _ (ih h)

theorem not_mem_seen_of_mem_dedupFirstAux {x : Row} {seen l : List Row}
    (h : x ∈ dedupFirstAux seen l) : x ∉ seen := by
  induction l generalizing seen with
  | nil => simp [dedupFirstAux] at h
  | cons r rs ih =>
    by_cases hr : r ∈ seen
    · simp only [dedupFirstAux, if_pos hr] at h
      exact ih h
    · simp only [dedupFirstAux, if_neg hr, List.mem_cons] at h
      rcases h with h | h
      · exact h ▸ hr
      · intro hx
        exact ih h (List.mem_cons_of_mem _ hx)

theorem nodup_dedupFirstAux (seen l : List Row) : (dedupFirstAux seen l).Nodup := by
  induction l generalizing seen with
  | nil => simp [dedupFirstAux]
  | cons r rs ih =>
    by_cases hr : r ∈ seen
    · simpa only [dedupFirstAux, if_pos hr] using ih seen
    · simp only [dedupFirstAux, if_neg hr]
      refine List.Nodup.cons (fun hmem => ?_) (ih (r :: seen))
      exact not_mem_seen_of_mem_dedupFirstAux hmem (List.mem_cons_self _ _)

theorem dedupFirstAux_eq_keepFirstSpec (seen l : List Row) :
    dedupFirstAux seen l = keepFirstSpec (l.filter (fun x => decide (x ∉ seen))) := by
  induction l generalizing seen with
  | nil => simp [dedupFirstAux, keepFirstSpec]
  | cons r rs ih =>
    by_cases hr : r ∈ seen
    · have hfc : (r :: rs).filter (fun x => decide (x ∉ seen))
          = rs.filter (fun x => decide (x ∉ seen)) := by
        simp [List.filter_cons, hr]
      rw [dedupFirstAux, if_pos hr, hfc, ih]
    · have hfc : (r :: rs).filter (fun x => decide (x ∉ seen))
          = r :: rs.filter (fun x => decide (x ∉ seen)) := by
        simp [List.filter_cons, hr]
      rw [dedupFirstAux, if_neg hr, hfc, keepFirstSpec, List.filter_filter, ih]
      congr 2
      apply List.filter_congr
      intro x _
      by_cases h1 : x = r <;> by_cases h2 : x ∈ seen <;> simp [h1, h2]

theorem dedupFirst_eq_keepFirstSpec (l : List Row) :
    dedupFirst l = keepFirstSpec l := by
  rw [dedupFirst, dedupFirstAux_eq_keepFirstSpec]
  congr 1
  apply List.filter_eq_self.mpr
  intro a _
  simp

/-- None of the stages after the two column drops changes the header. -/
theorem cols_parseDateCol (c : String) (f : Frame) : (parseDateCol c f).cols = f.cols := by
  unfold parseDateCol
  split <;> rfl

theorem cols_parseDates (f : Frame) : (parseDates f).cols = f.cols := by
  unfold parseDates
  rw [cols_parseDateCol, cols_parseDateCol, cols_parseDateCol]

theorem cols_imputePdDt (f : Frame) : (imputePdDt f).cols = f.cols := by
  unfold imputePdDt
  split <;> rfl

theorem cols_imputeClmAdjudTs (f : Frame) : (imputeClmAdjudTs f).cols = f.cols := by
  unfold imputeClmAdjudTs
  split <;> rfl

theorem cols_imputeCategorical (f : Frame) : (imputeCategorical f).cols = f.cols := by
  unfold imputeCategorical
  split <;> rfl

theorem cols_removeOutliers (f : Frame) : (removeOutliers f).cols = f.cols := by
  unfold removeOutliers
  split
  · split <;> rfl
  · rfl

theorem cols_dropDuplicateRows (f : Frame) : (dropDuplicateRows f).cols = f.cols := rfl

theorem rows_dropDuplicateRows (f : Frame) :
    (dropDuplicateRows f).rows = dedupFirst f.rows := rfl

/-- The header of the final output is exactly the header left after the two
column-dropping rules. -/
theorem cols_clean (f : Frame) : (clean f).cols = (cleaned3 f).cols := by
  rw [clean, cols_dropDuplicateRows, cleaned8, cols_removeOutliers, cleaned7,
    cols_imputeCategorical, cleaned6, cols_imputeClmAdjudTs, cleaned5,
    cols_imputePdDt, cleaned4, cols_parseDates]

theorem not_mem_dropColumns {c : String} (bad : List String) (f : Frame)
    (hc : c ∈ bad) : c ∉ (dropColumns bad f).cols := by
  intro hmem
  rw [dropColumns] at hmem
  simp only [List.mem_filter, List.contains, Bool.not_eq_eq_eq_not, Bool.not_true,
    List.elem_eq_mem, decide_eq_false_iff_not] at hmem
  exact hmem.2 hc

theorem cols_dropColumns_subset (bad : List String) (f : Frame) :
    (dropColumns bad f).cols ⊆ f.cols :=
  List.filter_subset' _

/-! ### Claims -/

/-- C9: For every input frame, the column named `authzn_id` is absent from
the output frame, whether or not it was present in the input; the drop is
total (`errors="ignore"`), so absence of the column never causes an error. -/
theorem authznId_absent_from_output (f : Frame) : "authzn_id" ∉ (clean f).cols := by
  rw [cols_clean, cleaned3, dropAuthznId]
  exact not_mem_dropColumns _ _ (List.mem_singleton.mpr rfl)

/-- C2 counterexample: in `frameC2` the missing fraction of column `A`,
computed over the rows of the input frame before any cleaning rule runs, is
50% (strictly above 40%), yet `A` is present in the output frame — the code
measures the fraction only after the fully-empty-row drop, which removes the
all-missing first row. -/
theorem sparse_threshold_precleaning_cex :
    100 * missingCount frameC2 "A" > 40 * frameC2.rows.length ∧
    "A" ∈ (clean frameC2).cols := by
  decide

/-- C2 (amended): for every column of the input frame, if its fraction of
missing values computed after the fully-empty-row drop (the point at which
the code computes `df.isnull().mean()`) strictly exceeds 40%, then that
column is absent from the output frame. -/
theorem sparse_column_dropped (f : Frame) (c : String) (hc : c ∈ f.cols)
    (h : 100 * missingCount (cleaned1 f) c > 40 * (cleaned1 f).rows.length) :
    c ∉ (clean f).cols := by
  intro hmem
  rw [cols_clean, cleaned3, dropAuthznId] at hmem
  have h2 : c ∈ (cleaned2 f).cols := cols_dropColumns_subset _ _ hmem
  rw [cleaned2, dropSparseColumns] at h2
  refine not_mem_dropColumns _ _ ?_ h2
  refine List.mem_filter.mpr ⟨?_, decide_eq_true h⟩
  exact hc

/-- Witness for `sparse_column_dropped`: in `frameC2w` column `A` is
two-thirds missing after the row drop, and is indeed gone from the output. -/
theorem sparse_column_dropped_witness : "A" ∉ (clean frameC2w).cols :=
  sparse_column_dropped frameC2w "A" (by decide) (by decide)

/-- C5 counterexample: the output of the pipeline on `frameC5` contains the
row whose only remaining cell is missing (column `A` was dropped as sparse),
so re-applying the drop-fully-empty-rows rule to the pipeline's output is
not a no-op. -/
theorem fully_missing_row_in_output_cex :
    [("B", (none : Option Val))] ∈ (clean frameC5).rows ∧
    dropAllNullRows (clean frameC5) ≠ clean frameC5 := by
  decide

/-- C5 (amended): the drop-fully-empty-rows rule is idempotent in isolation —
immediately after it runs, every surviving row has at least one non-missing
cell, and re-running the rule on its own output is a no-op. (Across the whole
pipeline the property fails: later column drops or date coercion can leave a
row fully missing, as `fully_missing_row_in_output_cex` shows.) -/
theorem dropAllNullRows_idempotent (f : Frame) :
    dropAllNullRows (dropAllNullRows f) = dropAllNullRows f ∧
    (dropAllNullRows f).rows.all (fun r => r.any (fun p => p.2.isSome)) = true := by
  constructor
  · simp only [dropAllNullRows]
    congr 1
    rw [List.filter_filter]
    apply List.filter_congr
    intro a _
    exact Bool.and_self _
  · apply List.all_eq_true.mpr
    intro r hr
    simp only [dropAllNullRows] at hr
    exact (List.mem_filter.mp hr).2

/-- C6: for every input frame, no two rows of the output frame are identical
across all columns, and the duplicate-drop stage keeps, for each distinct
row value, exactly the first occurrence in row order (`keepFirstSpec` is the
claim's "keep the first occurrence of each distinct row, drop the rest"
stated as a recursion, applied to the rows entering the stage). -/
theorem output_rows_nodup_keep_first (f : Frame) :
    (clean f).rows.Nodup ∧ (clean f).rows = keepFirstSpec (cleaned8 f).rows := by
  constructor
  · rw [clean, rows_dropDuplicateRows, dedupFirst]
    exact nodup_dedupFirstAux _ _
  · rw [clean, rows_dropDuplicateRows, dedupFirst_eq_keepFirstSpec]

/-- C4: if both `pd_dt` and `clm_sys_cret_dt` exist when the `pd_dt`
imputation rule runs, then every row whose `pd_dt` is missing after date
parsing and whose `clm_sys_cret_dt` is present gets
`pd_dt = clm_sys_cret_dt + 2 days` exactly, and the updated row is what the
rule passes on. -/
theorem pdDt_imputed (f : Frame)
    (h1 : "pd_dt" ∈ (cleaned4 f).cols) (h2 : "clm_sys_cret_dt" ∈ (cleaned4 f).cols)
    (r : Row) (hr : r ∈ (cleaned4 f).rows)
    (hmiss : rowGet "pd_dt" r = some none)
    (d : ℤ) (hc : rowGet "clm_sys_cret_dt" r = some (some (.date d))) :
    fillPdRow r ∈ (cleaned5 f).rows ∧
    rowGet "pd_dt" (fillPdRow r) = some (some (.date (d + 2))) := by
  constructor
  · rw [cleaned5, imputePdDt, if_pos ⟨h2, h1⟩]
    exact List.mem_map_of_mem _ hr
  · rw [fillPdRow, rowGet_rowMap_self, hmiss, hc]
    simp [fillCell, addDays]

/-- Witness for `pdDt_imputed` on `frameC4`: the first row's `pd_dt` becomes
day 102 = 100 + 2. -/
theorem pdDt_imputed_witness :
    fillPdRow rowC4 ∈ (cleaned5 frameC4).rows ∧
    rowGet "pd_dt" (fillPdRow rowC4) = some (some (.date 102)) :=
  pdDt_imputed frameC4 (by decide) (by decide) rowC4 (by decide) (by decide) 100 (by decide)

/-- C3: if both `pd_dt` and `clm_adjud_ts` exist when the `clm_adjud_ts`
imputation rule runs, then every row whose `clm_adjud_ts` is missing at that
point gets `clm_adjud_ts = pd_dt - 2 days`, where `pd_dt` is the row's value
after the `pd_dt` imputation rule has already run (possibly the
just-imputed synthetic value); if that `pd_dt` is itself missing, the imputed
value is missing too (`Option.map`). -/
theorem clmAdjudTs_imputed (f : Frame)
    (h1 : "pd_dt" ∈ (cleaned5 f).cols) (h2 : "clm_adjud_ts" ∈ (cleaned5 f).cols)
    (r : Row) (hr : r ∈ (cleaned5 f).rows)
    (hmiss : rowGet "clm_adjud_ts" r = some none) :
    fillAdjudRow r ∈ (cleaned6 f).rows ∧
    rowGet "clm_adjud_ts" (fillAdjudRow r) =
      some (((rowGet "pd_dt" r).getD none).map (addDays (-2))) := by
  constructor
  · rw [cleaned6, imputeClmAdjudTs, if_pos ⟨h1, h2⟩]
    exact List.mem_map_of_mem _ hr
  · rw [fillAdjudRow, rowGet_rowMap_self, hmiss]
    simp [fillCell]

/-- Witness for `clmAdjudTs_imputed` on `frameC3`: the first row reaches the
rule with the just-imputed `pd_dt = 102`, and `clm_adjud_ts` becomes
day 100 = 102 - 2. -/
theorem clmAdjudTs_imputed_witness :
    fillAdjudRow rowC3 ∈ (cleaned6 frameC3).rows ∧
    rowGet "clm_adjud_ts" (fillAdjudRow rowC3) = some (some (.date 100)) :=
  clmAdjudTs_imputed frameC3 (by decide) (by decide) rowC3 (by decide) (by decide)

theorem parseDateCol_applies (c : String) (g : Frame) (hc : c ∈ g.cols) (i : Nat)
    (r : Row) (hr : g.rows[i]? = some r) :
    ∃ r', (parseDateCol c g).rows[i]? = some r' ∧
      rowGet c r' = (rowGet c r).map (fun cell => cell.bind parseVal) := by
  refine ⟨rowMap c (fun cell => cell.bind parseVal) r, ?_, rowGet_rowMap_self _ _ _⟩
  rw [parseDateCol, if_pos hc]
  show (g.rows.map _)[i]? = _
  rw [List.getElem?_map, hr]
  rfl

theorem parseDateCol_preserves_other (c c' : String) (hne : c ≠ c') (g : Frame) (i : Nat)
    (r : Row) (hr : g.rows[i]? = some r) :
    ∃ r', (parseDateCol c' g).rows[i]? = some r' ∧ rowGet c r' = rowGet c r := by
  by_cases hc : c' ∈ g.cols
  · refine ⟨rowMap c' (fun cell => cell.bind parseVal) r, ?_, rowGet_rowMap_ne c c' hne _ r⟩
    rw [parseDateCol, if_pos hc]
    show (g.rows.map _)[i]? = _
    rw [List.getElem?_map, hr]
    rfl
  · refine ⟨r, ?_, rfl⟩
    rw [parseDateCol, if_neg hc]
    exact hr

/-- C8: for each of the date columns `pd_dt`, `clm_adjud_ts`,
`clm_sys_cret_dt` that is present when the date-parsing step runs, the step
is a total (never-raising) cell-wise coercion: each output cell is the
`parseVal` coercion of the input cell, so any value that fails to parse as a
date (e.g. the string `"not-a-date"`) becomes a missing value. -/
theorem date_parsing_coerces (f : Frame) (c : String) (hc : c ∈ dateColNames)
    (hcol : c ∈ (cleaned3 f).cols) (i : Nat) (r : Row)
    (hr : (cleaned3 f).rows[i]? = some r) :
    ∃ r', (cleaned4 f).rows[i]? = some r' ∧
      rowGet c r' = (rowGet c r).map (fun cell => cell.bind parseVal) := by
  rw [cleaned4, parseDates]
  rw [dateColNames] at hc
  simp only [List.mem_cons, List.not_mem_nil, or_false] at hc
  rcases hc with rfl | rfl | rfl
  · obtain ⟨r1, hr1, hg1⟩ := parseDateCol_applies "pd_dt" (cleaned3 f) hcol i r hr
    obtain ⟨r2, hr2, hg2⟩ :=
      parseDateCol_preserves_other "pd_dt" "clm_adjud_ts" (by decide) _ i r1 hr1
    obtain ⟨r3, hr3, hg3⟩ :=
      parseDateCol_preserves_other "pd_dt" "clm_sys_cret_dt" (by decide) _ i r2 hr2
    exact ⟨r3, hr3, by rw [hg3, hg2, hg1]⟩
  · obtain ⟨r1, hr1, hg1⟩ :=
      parseDateCol_preserves_other "clm_adjud_ts" "pd_dt" (by decide) _ i r hr
    have hcol1 : "clm_adjud_ts" ∈ (parseDateCol "pd_dt" (cleaned3 f)).cols := by
      rw [cols_parseDateCol]
      exact hcol
    obtain ⟨r2, hr2, hg2⟩ := parseDateCol_applies "clm_adjud_ts" _ hcol1 i r1 hr1
    obtain ⟨r3, hr3, hg3⟩ :=
      parseDateCol_preserves_other "clm_adjud_ts" "clm_sys_cret_dt" (by decide) _ i r2 hr2
    exact ⟨r3, hr3, by rw [hg3, hg2, hg1]⟩
  · obtain ⟨r1, hr1, hg1⟩ :=
      parseDateCol_preserves_other "clm_sys_cret_dt" "pd_dt" (by decide) _ i r hr
    obtain ⟨r2, hr2, hg2⟩ :=
      parseDateCol_preserves_other "clm_sys_cret_dt" "clm_adjud_ts" (by decide) _ i r1 hr1
    have hcol2 : "clm_sys_cret_dt" ∈
        (parseDateCol "clm_adjud_ts" (parseDateCol "pd_dt" (cleaned3 f))).cols := by
      rw [cols_parseDateCol, cols_parseDateCol]
      exact hcol
    obtain ⟨r3, hr3, hg3⟩ := parseDateCol_applies "clm_sys_cret_dt" _ hcol2 i r2 hr2
    exact ⟨r3, hr3, by rw [hg3, hg2, hg1]⟩

/-- Witness for `date_parsing_coerces` on `frameC8`, plus the concrete
coercion fact the spec cites: the non-missing value `"not-a-date"` fails to
parse and becomes a missing value (no error is raised — the coercion is a
total function). -/
theorem date_parsing_coerces_witness :
    (∃ r', (cleaned4 frameC8).rows[0]? = some r' ∧
      rowGet "clm_sys_cret_dt" r' =
        (rowGet "clm_sys_cret_dt" rowC8).map (fun cell => cell.bind parseVal)) ∧
    (some (Val.str "not-a-date")).bind parseVal = none :=
  ⟨date_parsing_coerces frameC8 "clm_sys_cret_dt" (by decide) (by decide) 0 rowC8 (by decide),
   by decide⟩

theorem mkRat_one_quarter : mkRat 1 4 = (1 : ℚ)/4 := by
  rw [Rat.mkRat_eq_div]
  norm_num

theorem mkRat_three_quarters : mkRat 3 4 = (3 : ℚ)/4 := by
  rw [Rat.mkRat_eq_div]
  norm_num

theorem mkRat_three_halves : mkRat 3 2 = (3 : ℚ)/2 := by
  rw [Rat.mkRat_eq_div]
  norm_num

/-- C1: if the column `totl_billd_amt` exists when the outlier-removal step
runs, every row of the final output has a non-missing numeric
`totl_billd_amt` value `q` lying in the inclusive range
`[Q1 - 1.5*IQR, Q3 + 1.5*IQR]`, where `Q1` and `Q3` are the
linear-interpolation quantiles of the column's non-missing values just
before the outlier-removal step and `IQR = Q3 - Q1`; in particular rows with
a missing value in the column are excluded from the output. -/
theorem outlier_rows_within_bounds (f : Frame)
    (h : "totl_billd_amt" ∈ (cleaned7 f).cols) :
    ∀ r ∈ (clean f).rows, ∃ q q1 q3,
      quantileSpec ((1 : ℚ)/4) (amtValues (cleaned7 f)) = some q1 ∧
      quantileSpec ((3 : ℚ)/4) (amtValues (cleaned7 f)) = some q3 ∧
      rowGet "totl_billd_amt" r = some (some (.num q)) ∧
      q1 - 3/2 * (q3 - q1) ≤ q ∧ q ≤ q3 + 3/2 * (q3 - q1) := by
  intro r hr
  rw [clean, rows_dropDuplicateRows, dedupFirst] at hr
  have hr8 : r ∈ (cleaned8 f).rows := mem_of_mem_dedupFirstAux hr
  rw [cleaned8, removeOutliers, if_pos h] at hr8
  rcases hq1 : quantile (mkRat 1 4) (amtValues (cleaned7 f)) with _ | q1
  · rw [hq1] at hr8
    simp at hr8
  rcases hq3 : quantile (mkRat 3 4) (amtValues (cleaned7 f)) with _ | q3
  · rw [hq1, hq3] at hr8
    simp at hr8
  rw [hq1, hq3] at hr8
  have hr8' : r ∈ (cleaned7 f).rows.filter (fun r =>
      match rowGet "totl_billd_amt" r with
      | some (some (.num q)) =>
          decide (ratSub q1 (ratMul (mkRat 3 2) (ratSub q3 q1)) ≤ q ∧
            q ≤ ratAdd q3 (ratMul (mkRat 3 2) (ratSub q3 q1)))
      | _ => false) := hr8
  have hpred := (List.mem_filter.mp hr8').2
  rcases hg : rowGet "totl_billd_amt" r with _ | ov
  · rw [hg] at hpred
    simp at hpred
  rcases ov with _ | v
  · rw [hg] at hpred
    simp at hpred
  rcases v with q | s | d
  · rw [hg] at hpred
    simp only [decide_eq_true_eq] at hpred
    rw [ratSub_eq, ratSub_eq, ratMul_eq, ratAdd_eq, mkRat_three_halves] at hpred
    rw [quantileSpec_eq, mkRat_one_quarter] at hq1
    rw [quantileSpec_eq, mkRat_three_quarters] at hq3
    exact ⟨q, q1, q3, hq1, hq3, rfl, hpred.1, hpred.2⟩
  · rw [hg] at hpred
    simp at hpred
  · rw [hg] at hpred
    simp at hpred

/-- Witness for `outlier_rows_within_bounds` on `frameC1` at the surviving
row with value 2: quartiles are 2 and 4, the band is [-1, 7]. -/
theorem outlier_rows_within_bounds_witness :
    ∃ q q1 q3,
      quantileSpec ((1 : ℚ)/4) (amtValues (cleaned7 frameC1)) = some q1 ∧
      quantileSpec ((3 : ℚ)/4) (amtValues (cleaned7 frameC1)) = some q3 ∧
      rowGet "totl_billd_amt" rowC1 = some (some (.num q)) ∧
      q1 - 3/2 * (q3 - q1) ≤ q ∧ q ≤ q3 + 3/2 * (q3 - q1) :=
  outlier_rows_within_bounds frameC1 (by decide) rowC1 (by decide)

theorem pyTruthy_none : pyTruthy none = false := rfl

theorem pyTruthy_some_empty : pyTruthy (some "") = false := by decide

theorem getSpark_error_iff (e : Env) :
    getSpark e = .error missingEnvMsg ↔
      (pyTruthy e.host && pyTruthy e.token && pyTruthy e.clusterId &&
        pyTruthy e.httpPath) = false := by
  rw [getSpark]
  cases hcond : (pyTruthy e.host && pyTruthy e.token && pyTruthy e.clusterId &&
      pyTruthy e.httpPath) <;> simp

theorem mainRun_config_error (e : Env) (src : Frame)
    (h : getSpark e = .error missingEnvMsg) :
    mainRun e src = .error missingEnvMsg := by
  unfold mainRun
  rw [h]

/-- C7 counterexample: in `envC7` all four connection parameters are present
in the environment (none of the variables is unset), yet the Connector
raises the configuration error, because the presence check tests truthiness
and the token is set to the empty string. -/
theorem config_error_despite_present_cex :
    envC7.host ≠ none ∧ envC7.token ≠ none ∧ envC7.clusterId ≠ none ∧
    envC7.httpPath ≠ none ∧ getSpark envC7 = .error missingEnvMsg := by
  refine ⟨by decide, by decide, by decide, by decide, rfl⟩

/-- C7 (amended): if any of the four connection parameters is absent or
empty (not truthy), the Connector raises the generic configuration error,
and `main` raises it before performing any I/O action, so the Loader is
never invoked; if all four are present and non-empty, no such error is
raised and the run proceeds to read and write. -/
theorem getSpark_config_gate (e : Env) (src : Frame) :
    ((pyTruthy e.host && pyTruthy e.token && pyTruthy e.clusterId &&
        pyTruthy e.httpPath) = false →
      getSpark e = .error missingEnvMsg ∧ mainRun e src = .error missingEnvMsg) ∧
    ((pyTruthy e.host && pyTruthy e.token && pyTruthy e.clusterId &&
        pyTruthy e.httpPath) = true →
      getSpark e = .ok () ∧
      mainRun e src =
        .ok ([.connect, .readTable, .writeCleanTable, .writeFeatureTable], clean src)) := by
  constructor
  · intro hfalse
    have hg : getSpark e = .error missingEnvMsg := (getSpark_error_iff e).mpr hfalse
    exact ⟨hg, mainRun_config_error e src hg⟩
  · intro htrue
    have hg : getSpark e = .ok () := by
      rw [getSpark, htrue]
      rfl
    refine ⟨hg, ?_⟩
    unfold mainRun
    rw [hg]

/-- Witness for `getSpark_config_gate`: with the token unset the run fails
before any action; with all four variables non-empty it succeeds. -/
theorem getSpark_config_gate_witness :
    (getSpark envC7bad = .error missingEnvMsg ∧
      mainRun envC7bad frameC7w = .error missingEnvMsg) ∧
    (getSpark envC7ok = .ok () ∧
      mainRun envC7ok frameC7w =
        .ok ([.connect, .readTable, .writeCleanTable, .writeFeatureTable], clean frameC7w)) :=
  ⟨(getSpark_config_gate envC7bad frameC7w).1 (by decide),
   (getSpark_config_gate envC7ok frameC7w).2 (by decide)⟩

/-- C10: a required connection variable that is set to the empty string is
treated exactly like an absent one — `get_spark` returns the same
configuration error (the presence check tests truthiness, not
definedness), and `main` raises it before any I/O action is performed. -/
theorem empty_env_var_like_absent (e : Env) (src : Frame) :
    (getSpark { e with host := some "" } = getSpark { e with host := none } ∧
      mainRun { e with host := some "" } src = .error missingEnvMsg) ∧
    (getSpark { e with token := some "" } = getSpark { e with token := none } ∧
      mainRun { e with token := some "" } src = .error missingEnvMsg) ∧
    (getSpark { e with clusterId := some "" } = getSpark { e with clusterId := none } ∧
      mainRun { e with clusterId := some "" } src = .error missingEnvMsg) ∧
    (getSpark { e with httpPath := some "" } = getSpark { e with httpPath := none } ∧
      mainRun { e with httpPath := some "" } src = .error missingEnvMsg) := by
  refine ⟨⟨?_, ?_⟩, ⟨?_, ?_⟩, ⟨?_, ?_⟩, ⟨?_, ?_⟩⟩ <;>
    first
      | exact ((getSpark_error_iff _).mpr
            (by simp [pyTruthy_some_empty, pyTruthy_none])).trans
          ((getSpark_error_iff _).mpr
            (by simp [pyTruthy_some_empty, pyTruthy_none])).symm
      | exact mainRun_config_error _ _ ((getSpark_error_iff _).mpr
          (by simp [pyTruthy_some_empty, pyTruthy_none]))

end DataCleaning
